import Mathlib

/-!
Verification development for the ARK-Commands repository.

The embedding below translates the command/parameter assembly engine of
`cheat_generator.py` (`_build_cmd_inputs`, `_update_output`, the widget
factories `_make_spin` / `_make_checkbox` / `_make_lineedit` /
`_make_fixed_zero`, and `FavoritesManager`) and the JSON cleaning helper
`clean_value` of `clean_json_refs.py` into executable Lean definitions.
Qt widgets are modelled by their observable state (range, value, enabled
flag, entry list, selection); machine integers are `Int`, strings are
`String`.
-/

set_option maxRecDepth 8000

/-! ## String helpers mirroring the Python primitives used by the source -/

/-- Bool test: the first list is a leading segment of the second
(`str.startswith` on char lists). -/
def isPre : List Char → List Char → Bool
  | [], _ => true
  | _ :: _, [] => false
  | p :: ps, c :: cs => p == c && isPre ps cs

/-- Bool test: the first list occurs contiguously inside the second
(Python's `x in s` substring test on char lists). -/
def isSubB (p : List Char) : List Char → Bool
  | [] => isPre p []
  | c :: cs => isPre p (c :: cs) || isSubB p cs

/-- Accumulator-style worker for whitespace splitting; `acc` holds the
current word reversed. -/
def wordsAux : List Char → List Char → List String
  | [], acc => if acc = [] then [] else [String.mk acc.reverse]
  | c :: cs, acc =>
    if c.isWhitespace then
      if acc = [] then wordsAux cs [] else String.mk acc.reverse :: wordsAux cs []
    else wordsAux cs (c :: acc)

/-- Python `str.split()` with no argument: split on whitespace runs,
dropping empty pieces.  (The templates only use ASCII whitespace.) -/
def pySplit (s : String) : List String := wordsAux s.data []

/-- Python `str.upper()` (ASCII, which is all the templates contain). -/
def pyUpper (s : String) : String := String.mk (s.data.map Char.toUpper)

/-- Python `str.lower()` (ASCII, which is all the placeholders contain). -/
def pyLower (s : String) : String := String.mk (s.data.map Char.toLower)

/-- Python `str.strip()`: drop leading and trailing whitespace. -/
def pyStrip (s : String) : String :=
  String.mk (((s.data.dropWhile Char.isWhitespace).reverse.dropWhile Char.isWhitespace).reverse)

/-- Python `" ".join(parts)`. -/
def joinSp : List String → String
  | [] => ""
  | [s] => s
  | s :: rest => s ++ " " ++ joinSp rest

/-- Bool test: the string ends with the given suffix. -/
def endsIn (suf s : String) : Bool := isPre suf.data.reverse s.data.reverse

/-- Split a char list at the first occurrence of `stop`: returns the part
before it and the part after it, or `none` when `stop` does not occur. -/
def takeTill (stop : Char) : List Char → Option (List Char × List Char)
  | [] => none
  | c :: cs =>
    if c == stop then some ([], cs)
    else (takeTill stop cs).map (fun p => (c :: p.1, p.2))

/-- Fuelled scanner for `re.findall(r"<([^>]+)>", s)`: at each `<` try to
match a non-empty bracket-free body closed by `>`; on success continue
after the `>`, otherwise continue with the next character. -/
def phAux : Nat → List Char → List String
  | 0, _ => []
  | _ + 1, [] => []
  | n + 1, c :: cs =>
    if c == '<' then
      match takeTill '>' cs with
      | some (content, after) =>
        if content = [] then phAux n cs else String.mk content :: phAux n after
      | none => phAux n cs
    else phAux n cs

/-- All placeholder bodies of a syntax template, in order
(`re.findall(r"<([^>]+)>", syntax)` in `_build_cmd_inputs`). -/
def findPh (s : String) : List String := phAux s.data.length s.data

/-! ## Data model: command descriptors, catalogs, widgets -/

/-- One record of the command catalog (`{name, description, syntax}`).
The source stores the template under the key `syntax`; that word is a
Lean keyword, so the field is called `template` here. -/
structure CommandDescriptor where
  name : String
  description : String
  template : String

/-- One record of the item catalog (`{name, id}`). -/
structure Item where
  name : String
  id : String

/-- One record of the creature catalog (`{name, class}`); `class` is a
Lean keyword, so the field is called `cls`. -/
structure Creature where
  name : String
  cls : String

/-- Observable state of the Qt input widgets created by
`_build_cmd_inputs`: spin boxes, the gamma slider, checkboxes, line
edits and combo boxes.  A combo box stores its `(display, data)` entries
and the current index; an empty combo box has no current entry. -/
inductive Widget where
  | spin (lo hi val : Int) (enabled : Bool)
  | slider (lo hi val : Int)
  | check (isOn : Bool)
  | lineedit (text : String)
  | combo (entries : List (String × String)) (sel : Nat)
deriving DecidableEq, Repr

/-- Qt clamps a requested value into the widget range (`qBound`). -/
def clampI (lo hi v : Int) : Int := max lo (min hi v)

/-- `_make_spin(lo, hi, tip)`: a fresh `QSpinBox` holds 0, and
`setRange` clamps that into the new range. -/
def mkSpin (lo hi : Int) : Widget := Widget.spin lo hi (clampI lo hi 0) true

/-- The fixed category options of the `KillAOE` override. -/
def killaoeCats : List String := ["pawns", "dinos", "tamed", "players", "wild", "structures"]

/-- `_make_fixed_zero()`: a disabled spin box with range `[0, 0]` and
value 0. -/
def mkFixedZero : Widget := Widget.spin 0 0 0 false

/-- The fixed slot sequence of the `SpawnExactDino` override, in the
exact order `_build_cmd_inputs` appends the rows. -/
def spawnExactSlots (items : List Item) (creatures : List Creature) :
    List (String × Widget) :=
  [("Blueprint", Widget.combo (creatures.map fun c => (c.name, c.cls)) 0),
   ("Saddle Blueprint", Widget.combo (items.map fun i => (i.name, i.id)) 0),
   ("Saddle Quality", mkSpin 0 9999),
   ("Base Level", mkSpin 0 9999),
   ("Extra Levels", mkSpin 0 9999),
   ("Base Stats", Widget.lineedit ""),
   ("Added Stats", Widget.lineedit ""),
   ("Name", Widget.lineedit ""),
   ("Cloned", Widget.check false),
   ("Neutered", Widget.check false),
   ("Tamed Date", Widget.lineedit ""),
   ("Uploaded From", Widget.lineedit ""),
   ("Imprinter Name", Widget.lineedit ""),
   ("Imprinter ID", Widget.lineedit ""),
   ("Imprint Quality", mkSpin 0 100),
   ("Fixed 0", mkFixedZero),
   ("Region Colors", Widget.lineedit ""),
   ("Creature ID", mkSpin (-9999) 9999),
   ("Experience", mkSpin (-9999) 9999),
   ("Spawn Distance", mkSpin (-9999) 9999),
   ("Spawn Y", mkSpin (-9999) 9999),
   ("Spawn Z", mkSpin (-9999) 9999)]

/-- `syntax.split()[1].upper()` guarded by `len(syntax.split()) > 1`. -/
def secondTokenUpper (t : String) : Option String :=
  match pySplit t with
  | _ :: second :: _ => some (pyUpper second)
  | _ => none

/-- The substrings that force an Integer slot in the generic fallback. -/
def intLikeKeys : List String := ["Amount", "Level", "Quality", "Stats"]

/-- The lowercase leading segments that force a Boolean slot in the
generic fallback. -/
def boolStarts : List String := ["true", "false", "prevent", "cloned", "neutered"]

/-- Generic fallback classification of one placeholder name
(the final `else` branch of `_build_cmd_inputs`). -/
def classifyParam (p : String) : Widget :=
  if intLikeKeys.any fun x => isSubB x.data p.data then
    mkSpin 0 999999
  else if boolStarts.any fun x => isPre x.data (pyLower p).data then
    Widget.check false
  else
    Widget.lineedit ""

/-- `_build_cmd_inputs` slot resolution for a selected command: the
named-command overrides, the GFI template-shape override, and the
generic placeholder fallback, in the source's branch order. -/
def resolveSlots (cmd : CommandDescriptor) (items : List Item)
    (creatures : List Creature) : List (String × Widget) :=
  if cmd.name = "KillAOE" then
    [("Category", Widget.combo (killaoeCats.map fun o => (o, o)) 0),
     ("Radius", mkSpin 0 9999)]
  else if secondTokenUpper cmd.template = some "GFI" then
    [("Blueprint / GFI", Widget.combo (items.map fun i => (i.name, i.id)) 0),
     ("Amount", mkSpin 1 9999),
     ("Quality", mkSpin 0 100),
     ("Force Blueprint", Widget.check false)]
  else if cmd.name = "SetGamma" then
    [("Value", Widget.slider 0 60 10)]
  else if cmd.name = "ClearWater" then
    [("ClearWater", Widget.check false)]
  else if cmd.name = "SpawnExactDino" then
    spawnExactSlots items creatures
  else
    (findPh cmd.template).map fun p => (p, classifyParam p)

/-! ## Rendering (`_update_output`, Commands-tab branch) -/

/-- `f"{value/10:.1f}"` for the gamma slider.  For every value the
slider can hold (0..60) the float format prints the integer tenths
exactly, so the embedding emits `value / 10` and `value % 10` digits. -/
def sliderToken (v : Int) : String :=
  toString (v / 10) ++ "." ++ toString (v % 10)

/-- The token each widget contributes to the command line, following the
`isinstance` chain of `_update_output`. -/
def widgetToken : Widget → String
  | Widget.spin _ _ v _ => toString v
  | Widget.slider _ _ v => sliderToken v
  | Widget.check b => if b then "1" else "0"
  | Widget.lineedit t => pyStrip t
  | Widget.combo es k =>
    match es.get? k with
    | some e => e.2
    | none => ""

/-- The Commands-tab branch of `_update_output`: with no selected
command the output stays empty; `ClearWater` is special-cased to emit
`r.VolumetricFog` with inverted checkbox polarity; every other command
emits the first two template tokens followed by one token per widget. -/
def renderCmd (cmd : Option CommandDescriptor)
    (widgets : List (String × Widget)) : String :=
  match cmd with
  | none => ""
  | some c =>
    if c.name = "ClearWater" then
      match widgets.find? fun lw => lw.1 == "ClearWater" with
      | some (_, Widget.check b) => "r.VolumetricFog " ++ (if b then "0" else "1")
      | _ => ""
    else
      joinSp ((pySplit c.template).take 2 ++ widgets.map fun lw => widgetToken lw.2)

/-- Bool test: some combo-box slot currently has no entry selected. -/
def hasEmptyChoice (ws : List (String × Widget)) : Bool :=
  ws.any fun lw =>
    match lw.2 with
    | Widget.combo es k => (es.get? k).isNone
    | _ => false

/-- Bool test: the slot is the structurally fixed zero of
`_make_fixed_zero` - a disabled Integer slot with range `[0, 0]`. -/
def isFixedZero (lw : String × Widget) : Bool :=
  match lw.2 with
  | Widget.spin lo hi _ e => lo == 0 && hi == 0 && !e
  | _ => false

/-- Bool test: the slot is an Integer slot with the given range. -/
def isRange (w : Widget) (a b : Int) : Bool :=
  match w with
  | Widget.spin lo hi _ _ => lo == a && hi == b
  | _ => false

/-! ## The stateful rebuild (`_build_cmd_inputs` clearing loop) -/

/-- The `while self.cmd_params_layout.count(): removeRow(0)` loop
together with `cmd_param_widgets.clear()`: removes every old row. -/
def clearRows : List α → List α
  | [] => []
  | _ :: t => clearRows t

/-- `_build_cmd_inputs` as a state transformer on the widget list: old
rows are cleared first, then the slots of the newly selected command
(if any) are appended. -/
def buildCmdInputs (prev : List (String × Widget)) (cmd : Option CommandDescriptor)
    (items : List Item) (creatures : List Creature) : List (String × Widget) :=
  let cleared := clearRows prev
  match cmd with
  | none => cleared
  | some c => cleared ++ resolveSlots c items creatures

/-! ## User interaction with the built widgets -/

/-- One user edit of a widget at a given row index. -/
inductive UAction where
  | setSpin (i : Nat) (v : Int)
  | setSlider (i : Nat) (v : Int)
  | setCheck (i : Nat) (b : Bool)
  | setText (i : Nat) (s : String)
  | selectIdx (i : Nat) (k : Nat)

/-- The row index an action targets. -/
def actIdx : UAction → Nat
  | UAction.setSpin i _ => i
  | UAction.setSlider i _ => i
  | UAction.setCheck i _ => i
  | UAction.setText i _ => i
  | UAction.selectIdx i _ => i

/-- Apply one edit to one widget: spin values are clamped into the
range and rejected on disabled widgets, slider values are clamped,
combo selection must pick an existing entry; edits aimed at a widget of
another kind do nothing. -/
def updateW : UAction → Widget → Widget
  | UAction.setSpin _ v, Widget.spin lo hi v0 e =>
    if e then Widget.spin lo hi (clampI lo hi v) e else Widget.spin lo hi v0 e
  | UAction.setSlider _ v, Widget.slider lo hi _ => Widget.slider lo hi (clampI lo hi v)
  | UAction.setCheck _ b, Widget.check _ => Widget.check b
  | UAction.setText _ s, Widget.lineedit _ => Widget.lineedit s
  | UAction.selectIdx _ k, Widget.combo es s0 =>
    if k < es.length then Widget.combo es k else Widget.combo es s0
  | _, w => w

/-- Replace the element at one index by its image under `f`. -/
def modifyAt : Nat → (α → α) → List α → List α
  | _, _, [] => []
  | 0, f, x :: xs => f x :: xs
  | n + 1, f, x :: xs => x :: modifyAt n f xs

/-- Apply one user edit to the widget list. -/
def applyAction (ws : List (String × Widget)) (a : UAction) : List (String × Widget) :=
  modifyAt (actIdx a) (fun lw => (lw.1, updateW a lw.2)) ws

/-- Apply a sequence of user edits. -/
def applyActions (acts : List UAction) (ws : List (String × Widget)) :
    List (String × Widget) :=
  acts.foldl applyAction ws

/-! ## FavoritesManager (`add_favorite` / `remove_favorite`) -/

/-- One favorites entry (`{command, description, tab_type, timestamp}`). -/
structure Favorite where
  command : String
  description : String
  tabType : String
  timestamp : String
deriving DecidableEq, Repr

/-- `FavoritesManager.add_favorite`: append unless some entry already
has the same command string. -/
def addFavorite (favs : List Favorite) (cmd desc tab ts : String) : List Favorite :=
  if favs.any fun f => f.command == cmd then favs
  else favs ++ [{ command := cmd, description := desc, tabType := tab, timestamp := ts }]

/-- `FavoritesManager.remove_favorite`: keep the entries whose command
string differs. -/
def removeFavorite (favs : List Favorite) (cmd : String) : List Favorite :=
  favs.filter fun f => f.command != cmd

/-- One favorites operation. -/
inductive FavOp where
  | add (cmd desc tab ts : String)
  | remove (cmd : String)

/-- Apply one favorites operation. -/
def applyFavOp (favs : List Favorite) : FavOp → List Favorite
  | FavOp.add c d t ts => addFavorite favs c d t ts
  | FavOp.remove c => removeFavorite favs c

/-! ## `clean_json_refs.py`: the `_pattern` regex and `clean_value` -/

/-- The literal head every match of `_pattern` starts with. -/
def markerL : List Char := ":contentReference[".data

/-- The full literal before the first digit group of `_pattern`. -/
def oaicitePref : List Char := markerL ++ "oaicite:".data

/-- The literal between the two digit groups: `]{index=`. -/
def indexLit : List Char := "]\x7bindex=".data

/-- Strip a literal from the front of a char list. -/
def stripLit : List Char → List Char → Option (List Char)
  | [], cs => some cs
  | _ :: _, [] => none
  | p :: ps, c :: cs => if c == p then stripLit ps cs else none

/-- Strip one or more digits (`\d+`, greedy; the following literal is
not a digit, so the greedy run is the unique viable one). -/
def dropDigits1 : List Char → Option (List Char)
  | [] => none
  | c :: cs => if c.isDigit then some (cs.dropWhile Char.isDigit) else none

/-- Match `_pattern` at the head of the list; on success return the
rest after the match. -/
def matchRef (cs : List Char) : Option (List Char) := do
  let r1 ← stripLit oaicitePref cs
  let r2 ← dropDigits1 r1
  let r3 ← stripLit indexLit r2
  let r4 ← dropDigits1 r3
  stripLit "\x7d".data r4

/-- Fuelled scanner for `_pattern.sub('', s)`: at every position either
delete a match and continue after it, or keep the character. -/
def subAux : Nat → List Char → List Char
  | 0, cs => cs
  | _ + 1, [] => []
  | n + 1, c :: cs =>
    match matchRef (c :: cs) with
    | some rest => subAux n rest
    | none => c :: subAux n cs

/-- `_pattern.sub('', s)`: delete every occurrence of the pattern. -/
def cleanStr (s : String) : String := String.mk (subAux s.data.length s.data)

/-- The JSON values `clean_value` walks over.  Arrays and objects are
represented as explicit cons chains (`anil`/`acons`, `onil`/`ocons`) so
that every function on them is plain structural recursion; a chain of
`acons` ended by `anil` is the Python list `[...]`, a chain of `ocons`
ended by `onil` is the dict `{...}`. -/
inductive Json where
  | str (s : String)
  | num (n : Int)
  | bool (b : Bool)
  | null
  | anil
  | acons (hd tl : Json)
  | onil
  | ocons (key : String) (val tl : Json)
deriving DecidableEq, Repr

/-- `clean_value`: clean every string, recurse into lists and dicts
elementwise, leave other scalars unchanged. -/
def cleanValue : Json → Json
  | Json.str s => Json.str (cleanStr s)
  | Json.num n => Json.num n
  | Json.bool b => Json.bool b
  | Json.null => Json.null
  | Json.anil => Json.anil
  | Json.acons h t => Json.acons (cleanValue h) (cleanValue t)
  | Json.onil => Json.onil
  | Json.ocons k v t => Json.ocons k (cleanValue v) (cleanValue t)

/-- No string anywhere in the value contains the marker
`:contentReference[` (hence `_pattern` cannot match anywhere in it). -/
def markerFreeV : Json → Bool
  | Json.str s => !(isSubB markerL s.data)
  | Json.num _ => true
  | Json.bool _ => true
  | Json.null => true
  | Json.anil => true
  | Json.acons h t => markerFreeV h && markerFreeV t
  | Json.onil => true
  | Json.ocons _ v t => markerFreeV v && markerFreeV t

/-! ## Concrete inputs used by counterexamples and witnesses -/

/-- A give-item command whose template carries a `Quality` placeholder;
its second token is the GFI sub-verb, so the template-shape override
handles it. -/
def gfiQualityCmd : CommandDescriptor :=
  { name := "GiveItemNum", description := "", template := "cheat GFI <Quality>" }

/-- A give-item command with the full placeholder list. -/
def gfiCmd : CommandDescriptor :=
  { name := "GiveItemNum", description := ""
    template := "cheat GFI <ItemNum> <Amount> <Quality> <ForceBP>" }

/-- A generic command whose placeholder starts with `Cloned` but also
contains `Level`. -/
def clonedLevelCmd : CommandDescriptor :=
  { name := "CloneDino", description := "", template := "cheat CloneDino <ClonedLevel>" }

/-- A string on which deleting the one full `_pattern` match splices the
surrounding text into a fresh match. -/
def spliceStr : String :=
  ":contentReference[oaicite:1:contentReference[oaicite:2]\x7bindex=3\x7d]\x7bindex=4\x7d"

/-! ## Helper lemmas -/

/-- The clearing loop empties the row list regardless of its content. -/
theorem clearRows_eq_nil : ∀ (l : List α), clearRows l = []
  | [] => rfl
  | _ :: t => clearRows_eq_nil t

/-- Reading an index other than the modified one. -/
theorem modifyAt_get_ne (f : α → α) :
    ∀ (n i : Nat) (l : List α), i ≠ n → (modifyAt n f l).get? i = l.get? i := by
  intro n i l
  induction l generalizing n i with
  | nil => intro _; cases n <;> rfl
  | cons x xs ih =>
    intro hne
    cases n with
    | zero =>
      cases i with
      | zero => exact absurd rfl hne
      | succ j => simp [modifyAt]
    | succ m =>
      cases i with
      | zero => simp [modifyAt]
      | succ j =>
        simp only [modifyAt, List.get?]
        exact ih m j (fun h => hne (by simp [h]))

/-- Reading the modified index. -/
theorem modifyAt_get_eq (f : α → α) :
    ∀ (n : Nat) (l : List α), (modifyAt n f l).get? n = (l.get? n).map f := by
  intro n l
  induction l generalizing n with
  | nil => cases n <;> rfl
  | cons x xs ih =>
    cases n with
    | zero => rfl
    | succ m => simpa [modifyAt] using ih m

/-- A pointwise `p`-preserving modification preserves the `p`-count. -/
theorem countP_modifyAt (p : α → Bool) (f : α → α) (h : ∀ x, p (f x) = p x) :
    ∀ (n : Nat) (l : List α), (modifyAt n f l).countP p = l.countP p := by
  intro n l
  induction l generalizing n with
  | nil => cases n <;> rfl
  | cons x xs ih =>
    cases n with
    | zero => simp [modifyAt, List.countP_cons, h]
    | succ m => simp [modifyAt, List.countP_cons, ih]

/-- No user edit can change a disabled spin box. -/
theorem updateW_disabled_spin (a : UAction) (lo hi v : Int) :
    updateW a (Widget.spin lo hi v false) = Widget.spin lo hi v false := by
  cases a <;> simp [updateW]

/-- One user edit never changes whether a slot is the fixed zero. -/
theorem isFixedZero_updateW (a : UAction) (lw : String × Widget) :
    isFixedZero (lw.1, updateW a lw.2) = isFixedZero lw := by
  obtain ⟨l, w⟩ := lw
  cases a <;> cases w <;>
    first
      | rfl
      | (simp only [updateW]; split <;> rfl)

/-- One user edit preserves the number of fixed-zero slots. -/
theorem countP_applyAction (ws : List (String × Widget)) (a : UAction) :
    (applyAction ws a).countP isFixedZero = ws.countP isFixedZero :=
  countP_modifyAt isFixedZero _ (fun lw => isFixedZero_updateW a lw) _ ws

/-- Any edit sequence preserves the number of fixed-zero slots. -/
theorem countP_applyActions :
    ∀ (acts : List UAction) (ws : List (String × Widget)),
      (applyActions acts ws).countP isFixedZero = ws.countP isFixedZero
  | [], _ => rfl
  | a :: rest, ws => by
    simpa [applyActions, countP_applyAction] using
      (countP_applyActions rest (applyAction ws a)).trans (countP_applyAction ws a)

/-- One user edit leaves a disabled spin row exactly as it was. -/
theorem applyAction_get_disabled (ws : List (String × Widget)) (a : UAction)
    (i : Nat) (l : String) (lo hi v : Int)
    (h : ws.get? i = some (l, Widget.spin lo hi v false)) :
    (applyAction ws a).get? i = some (l, Widget.spin lo hi v false) := by
  unfold applyAction
  by_cases hi2 : i = actIdx a
  · subst hi2
    rw [modifyAt_get_eq, h]
    simp [updateW_disabled_spin]
  · rw [modifyAt_get_ne _ _ _ _ hi2, h]

/-- Any edit sequence leaves a disabled spin row exactly as it was. -/
theorem applyActions_get_disabled :
    ∀ (acts : List UAction) (ws : List (String × Widget)) (i : Nat) (l : String)
      (lo hi v : Int),
      ws.get? i = some (l, Widget.spin lo hi v false) →
      (applyActions acts ws).get? i = some (l, Widget.spin lo hi v false)
  | [], _, _, _, _, _, _, h => h
  | a :: rest, ws, i, l, lo, hi, v, h =>
    applyActions_get_disabled rest (applyAction ws a) i l lo hi v
      (applyAction_get_disabled ws a i l lo hi v h)

/-- Splitting a space join at a non-empty front and back. -/
theorem joinSp_append :
    ∀ (xs ys : List String), xs ≠ [] → ys ≠ [] →
      joinSp (xs ++ ys) = joinSp xs ++ " " ++ joinSp ys := by
  intro xs
  induction xs with
  | nil => intro ys h _; exact absurd rfl h
  | cons a rest ih =>
    intro ys _ hys
    cases rest with
    | nil =>
      cases ys with
      | nil => exact absurd rfl hys
      | cons b t => rfl
    | cons c t =>
      have h1 : joinSp (a :: (c :: t ++ ys)) = a ++ " " ++ joinSp (c :: t ++ ys) := by
        cases t <;> cases ys <;> rfl
      calc joinSp ((a :: c :: t) ++ ys) = a ++ " " ++ joinSp (c :: t ++ ys) := h1
        _ = a ++ " " ++ (joinSp (c :: t) ++ " " ++ joinSp ys) := by
              rw [ih ys (by simp) hys]
        _ = a ++ " " ++ joinSp (c :: t) ++ " " ++ joinSp ys := by
              simp [String.append_assoc]
        _ = joinSp (a :: c :: t) ++ " " ++ joinSp ys := by
              cases t <;> rfl

/-- Leading-segment test is reflexive. -/
theorem isPre_refl : ∀ (p : List Char), isPre p p = true
  | [] => rfl
  | c :: cs => by simp [isPre, isPre_refl cs]

/-- A substring of the back half is a substring of the whole. -/
theorem isSubB_append_right :
    ∀ (l : List Char) (p m : List Char), isSubB p m = true → isSubB p (l ++ m) = true := by
  intro l
  induction l with
  | nil => intro p m h; simpa using h
  | cons c cs ih =>
    intro p m h
    simp only [List.cons_append, isSubB, Bool.or_eq_true]
    exact Or.inr (ih p m h)

/-- The whole list is a substring of itself. -/
theorem isSubB_self : ∀ (p : List Char), isSubB p p = true
  | [] => by simp [isSubB, isPre]
  | c :: cs => by simp [isSubB, isPre_refl]

/-- The last element of a space join occurs in the join as a substring. -/
theorem joinSp_last_sub :
    ∀ (xs : List String) (y : String), isSubB y.data (joinSp (xs ++ [y])).data = true := by
  intro xs
  induction xs with
  | nil => intro y; simpa [joinSp] using isSubB_self y.data
  | cons a rest ih =>
    intro y
    have h1 : joinSp (a :: (rest ++ [y])) = a ++ " " ++ joinSp (rest ++ [y]) := by
      cases rest <;> rfl
    rw [List.cons_append, h1]
    have h2 : (a ++ " " ++ joinSp (rest ++ [y])).data
        = (a ++ " ").data ++ (joinSp (rest ++ [y])).data := by
      simp [String.data_append]
    rw [h2]
    exact isSubB_append_right _ _ _ (ih y)

/-- With none of the override rules firing, resolution is the generic
placeholder fallback. -/
theorem resolveSlots_generic (c : CommandDescriptor) (items : List Item)
    (creatures : List Creature)
    (h1 : c.name ≠ "KillAOE") (h2 : secondTokenUpper c.template ≠ some "GFI")
    (h3 : c.name ≠ "SetGamma") (h4 : c.name ≠ "ClearWater")
    (h5 : c.name ≠ "SpawnExactDino") :
    resolveSlots c items creatures
      = (findPh c.template).map fun p => (p, classifyParam p) := by
  unfold resolveSlots
  rw [if_neg h1, if_neg h2, if_neg h3, if_neg h4, if_neg h5]

/-- `addFavorite` keeps the command strings duplicate-free. -/
theorem nodup_addFavorite (favs : List Favorite) (c d t ts : String)
    (h : (favs.map Favorite.command).Nodup) :
    ((addFavorite favs c d t ts).map Favorite.command).Nodup := by
  unfold addFavorite
  split
  · exact h
  next hna =>
    rw [List.map_append, List.nodup_append]
    refine ⟨h, by simp, ?_⟩
    intro x hx hx2
    simp only [List.map_cons, List.map_nil, List.mem_singleton] at hx2
    subst hx2
    obtain ⟨f, hf, hfc⟩ := List.mem_map.mp hx
    exact hna (List.any_eq_true.mpr ⟨f, hf, by simp [hfc]⟩)

/-- `removeFavorite` keeps the command strings duplicate-free. -/
theorem nodup_removeFavorite (favs : List Favorite) (c : String)
    (h : (favs.map Favorite.command).Nodup) :
    ((removeFavorite favs c).map Favorite.command).Nodup :=
  h.sublist ((List.filter_sublist favs).map Favorite.command)

/-- Any operation sequence keeps the command strings duplicate-free. -/
theorem nodup_applyFavOps :
    ∀ (ops : List FavOp) (favs : List Favorite),
      (favs.map Favorite.command).Nodup →
      ((ops.foldl applyFavOp favs).map Favorite.command).Nodup
  | [], _, h => h
  | op :: rest, favs, h => by
    refine nodup_applyFavOps rest (applyFavOp favs op) ?_
    cases op with
    | add c d t ts => exact nodup_addFavorite favs c d t ts h
    | remove c => exact nodup_removeFavorite favs c h

/-- Stripping a literal succeeds only when it leads the list. -/
theorem stripLit_isPre :
    ∀ (p cs r : List Char), stripLit p cs = some r → isPre p cs = true := by
  intro p
  induction p with
  | nil => intro cs r _; rfl
  | cons x ps ih =>
    intro cs r h
    cases cs with
    | nil => exact absurd h (by simp [stripLit])
    | cons c cs2 =>
      simp only [stripLit] at h
      by_cases he : c == x
      · rw [if_pos he] at h
        have hx : (x == c) = true := by
          have h3 := beq_iff_eq.mp he
          exact beq_iff_eq.mpr h3.symm
        simp [isPre, hx, ih cs2 r h]
      · rw [if_neg he] at h
        exact absurd h (by simp)

/-- Leading segments restrict to their own leading segments. -/
theorem isPre_append_left :
    ∀ (p q cs : List Char), isPre (p ++ q) cs = true → isPre p cs = true := by
  intro p
  induction p with
  | nil => intro q cs _; rfl
  | cons x ps ih =>
    intro q cs h
    cases cs with
    | nil => exact absurd h (by simp [isPre])
    | cons c cs2 =>
      simp only [List.cons_append, isPre, Bool.and_eq_true] at h ⊢
      exact ⟨h.1, ih q cs2 h.2⟩

/-- A successful `_pattern` match starts with the marker literal. -/
theorem matchRef_marker (cs r : List Char) (h : matchRef cs = some r) :
    isPre markerL cs = true := by
  cases h1 : stripLit oaicitePref cs with
  | none => rw [matchRef, h1] at h; exact absurd h (by simp)
  | some r1 =>
    have := stripLit_isPre oaicitePref cs r1 h1
    exact isPre_append_left markerL ("oaicite:".data) cs this

/-- If the marker is no substring, it is in particular no leading
segment. -/
theorem isSubB_false_head (p l : List Char) (h : isSubB p l = false) :
    isPre p l = false := by
  cases l with
  | nil => simpa [isSubB] using h
  | cons c cs =>
    simp only [isSubB, Bool.or_eq_false_iff] at h
    exact h.1

/-- Marker-free text passes the match-and-delete scan unchanged, for
any fuel. -/
theorem subAux_no_marker :
    ∀ (fuel : Nat) (cs : List Char), isSubB markerL cs = false → subAux fuel cs = cs := by
  intro fuel
  induction fuel with
  | zero => intro cs _; rfl
  | succ n ih =>
    intro cs h
    cases cs with
    | nil => rfl
    | cons c cs2 =>
      have hhead : isPre markerL (c :: cs2) = false := isSubB_false_head _ _ h
      have htail : isSubB markerL cs2 = false := by
        simp only [isSubB, Bool.or_eq_false_iff] at h
        exact h.2
      have hm : matchRef (c :: cs2) = none := by
        cases hmr : matchRef (c :: cs2) with
        | none => rfl
        | some r => exact absurd (matchRef_marker _ r hmr) (by simp [hhead])
      simp only [subAux, hm]
      rw [ih cs2 htail]

/-- `_pattern.sub` leaves a marker-free string unchanged. -/
theorem cleanStr_no_marker (s : String) (h : isSubB markerL s.data = false) :
    cleanStr s = s := by
  obtain ⟨l⟩ := s
  unfold cleanStr
  exact congrArg String.mk (subAux_no_marker l.length l h)

/-- `clean_value` is the identity on marker-free values. -/
theorem cleanValue_markerFree :
    ∀ (v : Json), markerFreeV v = true → cleanValue v = v := by
  intro v
  induction v with
  | str s =>
    intro h
    simp only [markerFreeV, Bool.not_eq_eq_eq_not, Bool.not_true] at h
    simp [cleanValue, cleanStr_no_marker s h]
  | num n => intro _; rfl
  | bool b => intro _; rfl
  | null => intro _; rfl
  | anil => intro _; rfl
  | acons hd tl ih1 ih2 =>
    intro h
    simp only [markerFreeV, Bool.and_eq_true] at h
    simp [cleanValue, ih1 h.1, ih2 h.2]
  | onil => intro _; rfl
  | ocons k v2 tl ih1 ih2 =>
    intro h
    simp only [markerFreeV, Bool.and_eq_true] at h
    simp [cleanValue, ih1 h.1, ih2 h.2]

/-! ## Claim theorems -/

/-- C1 (counterexample): the claim quantifies over all templates,
including override-handled ones, but a give-item command whose template
carries a `<Quality>` placeholder is handled by the GFI template-shape
override, whose Quality slot has range `[0, 100]`, and no resolved slot
at all has range `[0, 999999]`. -/
theorem quality_override_counterexample :
    "Quality" ∈ findPh gfiQualityCmd.template ∧
    (resolveSlots gfiQualityCmd [] []).find? (fun lw => isSubB "Quality".data lw.1.data)
      = some ("Quality", Widget.spin 0 100 0 true) ∧
    ((resolveSlots gfiQualityCmd [] []).all fun lw => !(isRange lw.2 0 999999)) = true :=
  ⟨by decide, by decide, by decide⟩

/-- C1 (amended): for every template handled by the generic fallback
(no named-command override and no GFI template shape), every resolved
slot whose placeholder name contains `Quality` is an Integer slot with
range exactly `[0, 999999]`. -/
theorem quality_generic_integer_range (c : CommandDescriptor) (items : List Item)
    (creatures : List Creature) (lbl : String) (w : Widget)
    (h1 : c.name ≠ "KillAOE") (h2 : secondTokenUpper c.template ≠ some "GFI")
    (h3 : c.name ≠ "SetGamma") (h4 : c.name ≠ "ClearWater")
    (h5 : c.name ≠ "SpawnExactDino")
    (hm : (lbl, w) ∈ resolveSlots c items creatures)
    (hq : isSubB "Quality".data lbl.data = true) :
    w = Widget.spin 0 999999 0 true := by
  rw [resolveSlots_generic c items creatures h1 h2 h3 h4 h5] at hm
  obtain ⟨p, hp, hpe⟩ := List.mem_map.mp hm
  simp only [Prod.mk.injEq] at hpe
  obtain ⟨hp1, hp2⟩ := hpe
  subst hp1
  rw [← hp2]
  unfold classifyParam
  rw [if_pos (List.any_eq_true.mpr ⟨"Quality", by decide, hq⟩)]
  decide

/-- C1 (witness): a generic-fallback command with a `<Quality>`
placeholder resolves it to the `[0, 999999]` Integer slot. -/
theorem quality_generic_integer_range_witness :
    ("Quality", Widget.spin 0 999999 0 true) ∈ resolveSlots
        { name := "GiveArmorSet", description := ""
          template := "cheat GiveArmorSet <Tier> <Quality>" } [] [] ∧
    Widget.spin 0 999999 0 true = Widget.spin 0 999999 0 true :=
  ⟨by decide,
   quality_generic_integer_range
     { name := "GiveArmorSet", description := ""
       template := "cheat GiveArmorSet <Tier> <Quality>" }
     [] [] "Quality" (Widget.spin 0 999999 0 true)
     (by decide) (by decide) (by decide) (by decide) (by decide)
     (by decide) (by decide)⟩

/-- C3 (counterexample): `ClonedLevel` starts with `cloned` in
lowercase, yet the generic fallback resolves it to an Integer slot (the
`Level` substring rule is tested first), not a Boolean slot. -/
theorem cloned_level_counterexample :
    isPre "cloned".data (pyLower "ClonedLevel").data = true ∧
    resolveSlots clonedLevelCmd [] [] = [("ClonedLevel", Widget.spin 0 999999 0 true)] ∧
    ((resolveSlots clonedLevelCmd [] []).all fun lw =>
        match lw.2 with
        | Widget.check _ => false
        | _ => true) = true :=
  ⟨by decide, by decide, by decide⟩

/-- C3 (amended): in the generic fallback, a placeholder whose
lowercase form starts with `cloned` or `neutered` resolves to a
Boolean slot provided its name contains none of the Integer-forcing
substrings `Amount`, `Level`, `Quality`, `Stats` (those are tested
first). -/
theorem cloned_neutered_boolean (c : CommandDescriptor) (items : List Item)
    (creatures : List Creature) (lbl : String) (w : Widget)
    (h1 : c.name ≠ "KillAOE") (h2 : secondTokenUpper c.template ≠ some "GFI")
    (h3 : c.name ≠ "SetGamma") (h4 : c.name ≠ "ClearWater")
    (h5 : c.name ≠ "SpawnExactDino")
    (hm : (lbl, w) ∈ resolveSlots c items creatures)
    (hpre : (isPre "cloned".data (pyLower lbl).data
              || isPre "neutered".data (pyLower lbl).data) = true)
    (hno : (intLikeKeys.any fun x => isSubB x.data lbl.data) = false) :
    w = Widget.check false := by
  rw [resolveSlots_generic c items creatures h1 h2 h3 h4 h5] at hm
  obtain ⟨p, hp, hpe⟩ := List.mem_map.mp hm
  simp only [Prod.mk.injEq] at hpe
  obtain ⟨hp1, hp2⟩ := hpe
  subst hp1
  rw [← hp2]
  unfold classifyParam
  rw [if_neg (by simp [hno]), if_pos ?hb]
  case hb =>
    simp only [Bool.or_eq_true] at hpre
    rcases hpre with hl | hr
    · exact List.any_eq_true.mpr ⟨"cloned", by decide, hl⟩
    · exact List.any_eq_true.mpr ⟨"neutered", by decide, hr⟩

/-- C3 (witness): a generic-fallback command with a `<NeuteredFlag>`
placeholder resolves it to a Boolean slot. -/
theorem cloned_neutered_boolean_witness :
    ("NeuteredFlag", Widget.check false) ∈ resolveSlots
        { name := "SetNeutered", description := ""
          template := "cheat SetNeutered <NeuteredFlag>" } [] [] ∧
    Widget.check false = Widget.check false :=
  ⟨by decide,
   cloned_neutered_boolean
     { name := "SetNeutered", description := ""
       template := "cheat SetNeutered <NeuteredFlag>" }
     [] [] "NeuteredFlag" (Widget.check false)
     (by decide) (by decide) (by decide) (by decide) (by decide)
     (by decide) (by decide) (by decide)⟩

/-- C2 (counterexample): with the item catalog empty, the give-item
command has a Choice slot with no selected catalog entry, yet render
emits a non-empty (partial) command string instead of the empty
string. -/
theorem empty_choice_render_counterexample :
    hasEmptyChoice (resolveSlots gfiCmd [] []) = true ∧
    renderCmd (some gfiCmd) (resolveSlots gfiCmd [] []) ≠ "" :=
  ⟨by decide, by decide⟩

/-- C2 (amended): with no command selected, render returns the empty
string; a Choice slot with no selected catalog entry does not blank the
output - it merely contributes an empty token (the empty current text
of the combo box). -/
theorem render_none_empty (ws : List (String × Widget))
    (es : List (String × String)) (k : Nat) (h : es.get? k = none) :
    renderCmd none ws = "" ∧ widgetToken (Widget.combo es k) = "" := by
  refine ⟨rfl, ?_⟩
  rw [List.get?_eq_getElem?] at h
  simp [widgetToken, h]

/-- C2 (witness): the no-command case and the empty-combo token at a
concrete input. -/
theorem render_none_empty_witness :
    renderCmd none [] = "" ∧ widgetToken (Widget.combo [] 0) = "" :=
  render_none_empty [] [] 0 rfl

/-- C4 (confirmed): the `ClearWater` command resolves to its single
Boolean slot, and rendering ignores the syntax template entirely,
producing the two tokens `r.VolumetricFog` and `0` (checked) or `1`
(unchecked); the output ends in `0` iff checked and in `1` iff
unchecked. -/
theorem clearwater_render_inverted (desc tmpl : String) (items : List Item)
    (creatures : List Creature) (h : secondTokenUpper tmpl ≠ some "GFI") (b : Bool) :
    resolveSlots ⟨"ClearWater", desc, tmpl⟩ items creatures
      = [("ClearWater", Widget.check false)] ∧
    renderCmd (some ⟨"ClearWater", desc, tmpl⟩) [("ClearWater", Widget.check b)]
      = "r.VolumetricFog " ++ (if b then "0" else "1") ∧
    pySplit (renderCmd (some ⟨"ClearWater", desc, tmpl⟩) [("ClearWater", Widget.check b)])
      = ["r.VolumetricFog", if b then "0" else "1"] ∧
    endsIn "0" (renderCmd (some ⟨"ClearWater", desc, tmpl⟩) [("ClearWater", Widget.check b)]) = b ∧
    endsIn "1" (renderCmd (some ⟨"ClearWater", desc, tmpl⟩) [("ClearWater", Widget.check b)]) = !b := by
  have hr : renderCmd (some ⟨"ClearWater", desc, tmpl⟩) [("ClearWater", Widget.check b)]
      = "r.VolumetricFog " ++ (if b then "0" else "1") := rfl
  refine ⟨?_, hr, ?_, ?_, ?_⟩
  · simp [resolveSlots, h]
  · rw [hr]; cases b <;> decide
  · rw [hr]; cases b <;> decide
  · rw [hr]; cases b <;> decide

/-- C4 (witness): the concrete `ClearWater` command with the box
checked. -/
theorem clearwater_render_inverted_witness :
    resolveSlots ⟨"ClearWater", "", "ClearWater"⟩ [] []
      = [("ClearWater", Widget.check false)] ∧
    renderCmd (some ⟨"ClearWater", "", "ClearWater"⟩) [("ClearWater", Widget.check true)]
      = "r.VolumetricFog " ++ (if true then "0" else "1") ∧
    pySplit (renderCmd (some ⟨"ClearWater", "", "ClearWater"⟩) [("ClearWater", Widget.check true)])
      = ["r.VolumetricFog", if true then "0" else "1"] ∧
    endsIn "0" (renderCmd (some ⟨"ClearWater", "", "ClearWater"⟩) [("ClearWater", Widget.check true)]) = true ∧
    endsIn "1" (renderCmd (some ⟨"ClearWater", "", "ClearWater"⟩) [("ClearWater", Widget.check true)]) = !true :=
  clearwater_render_inverted "" "ClearWater" [] [] (by decide) true

/-- C5 (confirmed): the `SetGamma` command resolves to its single slot
with range `[0, 60]` (default 10), rendering appends the stored value
divided by 10 with one decimal digit after the template verbs, and the
stored value 25 renders as the substring `2.5`. -/
theorem setgamma_render_tenths (desc tmpl : String) (items : List Item)
    (creatures : List Creature) (h : secondTokenUpper tmpl ≠ some "GFI") (v : Int) :
    resolveSlots ⟨"SetGamma", desc, tmpl⟩ items creatures
      = [("Value", Widget.slider 0 60 10)] ∧
    renderCmd (some ⟨"SetGamma", desc, tmpl⟩) [("Value", Widget.slider 0 60 v)]
      = joinSp ((pySplit tmpl).take 2 ++ [sliderToken v]) ∧
    sliderToken 25 = "2.5" ∧
    isSubB "2.5".data
      (renderCmd (some ⟨"SetGamma", desc, tmpl⟩) [("Value", Widget.slider 0 60 25)]).data
      = true := by
  have hr : ∀ (w : Int), renderCmd (some ⟨"SetGamma", desc, tmpl⟩)
      [("Value", Widget.slider 0 60 w)]
      = joinSp ((pySplit tmpl).take 2 ++ [sliderToken w]) := fun w => rfl
  refine ⟨?_, hr v, by decide, ?_⟩
  · simp [resolveSlots, h]
  · rw [hr 25]
    rw [show sliderToken 25 = "2.5" from by decide]
    exact joinSp_last_sub _ _

/-- C5 (witness): the concrete `SetGamma` command at stored value
25. -/
theorem setgamma_render_tenths_witness :
    resolveSlots ⟨"SetGamma", "", "SetGamma <option> <value>"⟩ [] []
      = [("Value", Widget.slider 0 60 10)] ∧
    renderCmd (some ⟨"SetGamma", "", "SetGamma <option> <value>"⟩)
        [("Value", Widget.slider 0 60 25)]
      = joinSp ((pySplit "SetGamma <option> <value>").take 2 ++ [sliderToken 25]) ∧
    sliderToken 25 = "2.5" ∧
    isSubB "2.5".data
      (renderCmd (some ⟨"SetGamma", "", "SetGamma <option> <value>"⟩)
        [("Value", Widget.slider 0 60 25)]).data = true :=
  setgamma_render_tenths "" "SetGamma <option> <value>" [] [] (by decide) 25

/-- C6 (confirmed): a command whose template's second token is `GFI`
(case-insensitively) and which is not captured by an earlier named
override resolves to the fixed four-slot sequence (item Choice, amount
`[1, 9999]`, quality `[0, 100]`, force-blueprint Boolean), and
rendering with item id `123`, amount 5, quality 50, blueprint unchecked
yields the two template verb tokens followed by `123 5 50 0`. -/
theorem gfi_shape_slots_render (c : CommandDescriptor) (items : List Item)
    (creatures : List Creature) (nm : String)
    (h1 : c.name ≠ "KillAOE") (h2 : c.name ≠ "ClearWater")
    (hg : secondTokenUpper c.template = some "GFI") :
    resolveSlots c items creatures =
      [("Blueprint / GFI", Widget.combo (items.map fun i => (i.name, i.id)) 0),
       ("Amount", Widget.spin 1 9999 1 true),
       ("Quality", Widget.spin 0 100 0 true),
       ("Force Blueprint", Widget.check false)] ∧
    renderCmd (some c)
      [("Blueprint / GFI", Widget.combo [(nm, "123")] 0),
       ("Amount", Widget.spin 1 9999 5 true),
       ("Quality", Widget.spin 0 100 50 true),
       ("Force Blueprint", Widget.check false)]
      = joinSp ((pySplit c.template).take 2) ++ " 123 5 50 0" := by
  constructor
  · unfold resolveSlots
    rw [if_neg h1, if_pos hg]
    norm_num [mkSpin, clampI]
  · obtain ⟨a, s, rest, hsp⟩ : ∃ a s rest, pySplit c.template = a :: s :: rest := by
      unfold secondTokenUpper at hg
      cases hsp : pySplit c.template with
      | nil => rw [hsp] at hg; exact absurd hg (by simp)
      | cons a t =>
        cases t with
        | nil => rw [hsp] at hg; exact absurd hg (by simp)
        | cons s rest => exact ⟨a, s, rest, rfl⟩
    simp only [renderCmd]
    rw [if_neg h2]
    have hmap : ([("Blueprint / GFI", Widget.combo [(nm, "123")] 0),
       ("Amount", Widget.spin 1 9999 5 true),
       ("Quality", Widget.spin 0 100 50 true),
       ("Force Blueprint", Widget.check false)].map fun lw => widgetToken lw.2)
        = ["123", "5", "50", "0"] := rfl
    rw [hmap, hsp]
    rw [show List.take 2 (a :: s :: rest) = [a, s] from rfl]
    rw [joinSp_append [a, s] ["123", "5", "50", "0"] (by simp) (by simp)]
    rw [String.append_assoc]
    rfl

/-- C6 (witness): the concrete give-item command with GFI second
token. -/
theorem gfi_shape_slots_render_witness :
    resolveSlots gfiCmd [] [] =
      [("Blueprint / GFI", Widget.combo (([] : List Item).map fun i => (i.name, i.id)) 0),
       ("Amount", Widget.spin 1 9999 1 true),
       ("Quality", Widget.spin 0 100 0 true),
       ("Force Blueprint", Widget.check false)] ∧
    renderCmd (some gfiCmd)
      [("Blueprint / GFI", Widget.combo [("Stone", "123")] 0),
       ("Amount", Widget.spin 1 9999 5 true),
       ("Quality", Widget.spin 0 100 50 true),
       ("Force Blueprint", Widget.check false)]
      = joinSp ((pySplit gfiCmd.template).take 2) ++ " 123 5 50 0" :=
  gfi_shape_slots_render gfiCmd [] [] "Stone" (by decide) (by decide) (by decide)

/-- C7 (confirmed): rebuilding the command inputs clears all previous
rows first, so the resulting slot list is independent of any previously
resolved state, and rebuilding again with the same inputs reproduces
the same list (determinism, purity and idempotence of resolution). -/
theorem build_cmd_inputs_pure (prev1 prev2 : List (String × Widget))
    (cmd : Option CommandDescriptor) (items : List Item) (creatures : List Creature) :
    buildCmdInputs prev1 cmd items creatures = buildCmdInputs prev2 cmd items creatures ∧
    buildCmdInputs (buildCmdInputs prev1 cmd items creatures) cmd items creatures
      = buildCmdInputs prev1 cmd items creatures := by
  unfold buildCmdInputs
  cases cmd <;> simp [clearRows_eq_nil]

/-- C8 (confirmed): the `SpawnExactDino` rule produces exactly one
fixed-zero slot (a disabled Integer slot with range `[0, 0]` and value
0); it sits at row 15, no sequence of user edits can change it, and its
rendered token is always the literal `0`. -/
theorem spawn_exact_fixed_zero (desc tmpl : String) (items : List Item)
    (creatures : List Creature) (h : secondTokenUpper tmpl ≠ some "GFI")
    (acts : List UAction) :
    (applyActions acts (resolveSlots ⟨"SpawnExactDino", desc, tmpl⟩ items creatures)).countP
        isFixedZero = 1 ∧
    (applyActions acts (resolveSlots ⟨"SpawnExactDino", desc, tmpl⟩ items creatures)).get? 15
      = some ("Fixed 0", Widget.spin 0 0 0 false) ∧
    ((applyActions acts (resolveSlots ⟨"SpawnExactDino", desc, tmpl⟩ items creatures)).map
        fun lw => widgetToken lw.2).get? 15 = some "0" := by
  have hres : resolveSlots ⟨"SpawnExactDino", desc, tmpl⟩ items creatures
      = spawnExactSlots items creatures := by
    simp [resolveSlots, h]
  have hget : (spawnExactSlots items creatures).get? 15
      = some ("Fixed 0", Widget.spin 0 0 0 false) := rfl
  have hkeep : (applyActions acts (spawnExactSlots items creatures)).get? 15
      = some ("Fixed 0", Widget.spin 0 0 0 false) :=
    applyActions_get_disabled acts _ 15 _ 0 0 0 hget
  have hcount : (spawnExactSlots items creatures).countP isFixedZero = 1 := by
    simp [spawnExactSlots, List.countP_cons, isFixedZero, mkSpin, mkFixedZero, List.countP_nil]
  refine ⟨?_, ?_, ?_⟩
  · rw [hres, countP_applyActions, hcount]
  · rw [hres]; exact hkeep
  · rw [hres, List.get?_map, hkeep]; rfl

/-- C8 (witness): the concrete `SpawnExactDino` command with no user
edits. -/
theorem spawn_exact_fixed_zero_witness :
    (applyActions [] (resolveSlots ⟨"SpawnExactDino", "", "cheat SpawnExactDino"⟩ [] [])).countP
        isFixedZero = 1 ∧
    (applyActions [] (resolveSlots ⟨"SpawnExactDino", "", "cheat SpawnExactDino"⟩ [] [])).get? 15
      = some ("Fixed 0", Widget.spin 0 0 0 false) ∧
    ((applyActions [] (resolveSlots ⟨"SpawnExactDino", "", "cheat SpawnExactDino"⟩ [] [])).map
        fun lw => widgetToken lw.2).get? 15 = some "0" :=
  spawn_exact_fixed_zero "" "cheat SpawnExactDino" [] [] (by decide) []

/-- C9 (confirmed): starting from a favorites list whose command
strings are pairwise distinct, any sequence of add/remove operations
preserves distinctness, and adding an already-present command string
leaves the list unchanged. -/
theorem favorites_unique_invariant (favs : List Favorite) (ops : List FavOp)
    (c d t ts : String)
    (h : (favs.map Favorite.command).Nodup)
    (hc : (favs.any fun f => f.command == c) = true) :
    ((ops.foldl applyFavOp favs).map Favorite.command).Nodup ∧
    addFavorite favs c d t ts = favs := by
  refine ⟨nodup_applyFavOps ops favs h, ?_⟩
  unfold addFavorite
  rw [if_pos hc]

/-- C9 (witness): a concrete favorites list, operation sequence and
duplicate add. -/
theorem favorites_unique_invariant_witness :
    (([FavOp.add "cheat god" "Commands - God" "Commands" "t2",
       FavOp.remove "cheat fly"].foldl applyFavOp
        [{ command := "cheat fly", description := "Commands - Fly"
           tabType := "Commands", timestamp := "t1" }]).map Favorite.command).Nodup ∧
    addFavorite
        [{ command := "cheat fly", description := "Commands - Fly"
           tabType := "Commands", timestamp := "t1" }]
        "cheat fly" "again" "Commands" "t3"
      = [{ command := "cheat fly", description := "Commands - Fly"
           tabType := "Commands", timestamp := "t1" }] :=
  favorites_unique_invariant
    [{ command := "cheat fly", description := "Commands - Fly"
       tabType := "Commands", timestamp := "t1" }]
    [FavOp.add "cheat god" "Commands - God" "Commands" "t2", FavOp.remove "cheat fly"]
    "cheat fly" "again" "Commands" "t3" (by decide) (by decide)

/-- C10 (counterexample): `clean_value` is not idempotent - on this
string the single full pattern match is deleted, which splices the
surrounding text into a fresh match that only a second application
removes. -/
theorem clean_value_not_idempotent :
    cleanValue (cleanValue (Json.str spliceStr)) ≠ cleanValue (Json.str spliceStr) := by
  decide

/-- C10 (amended): `clean_value` is idempotent on every JSON value none
of whose strings contains the marker `:contentReference[` (on such
values it is the identity); in general deleting an occurrence can
splice surrounding text into a new occurrence, so a second application
can remove more. -/
theorem clean_value_idempotent_marker_free (v : Json) (h : markerFreeV v = true) :
    cleanValue (cleanValue v) = cleanValue v := by
  rw [cleanValue_markerFree v h, cleanValue_markerFree v h]

/-- C10 (witness): a concrete nested marker-free value. -/
theorem clean_value_idempotent_marker_free_witness :
    markerFreeV (Json.ocons "name" (Json.str "Rex")
        (Json.ocons "ids" (Json.acons (Json.num 1) (Json.acons (Json.str "abc") Json.anil))
          Json.onil)) = true ∧
    cleanValue (cleanValue (Json.ocons "name" (Json.str "Rex")
        (Json.ocons "ids" (Json.acons (Json.num 1) (Json.acons (Json.str "abc") Json.anil))
          Json.onil)))
      = cleanValue (Json.ocons "name" (Json.str "Rex")
        (Json.ocons "ids" (Json.acons (Json.num 1) (Json.acons (Json.str "abc") Json.anil))
          Json.onil)) :=
  ⟨by decide,
   clean_value_idempotent_marker_free
     (Json.ocons "name" (Json.str "Rex")
       (Json.ocons "ids" (Json.acons (Json.num 1) (Json.acons (Json.str "abc") Json.anil))
         Json.onil))
     (by decide)⟩
